import Mathlib

/-!
Verification of the mcp-lab agent orchestration core.

This file gives a shallow embedding of the Python sources under
`client/` (agent.py, lib/llm_client.py, lib/tool_router.py,
lib/mcp_client.py) and proves the spec's testable properties about it.

Modelling conventions:
- Python dicts that come from parsed JSON are association lists with
  Python-dict insertion semantics (`objInsert` replaces the value of an
  existing key in place, otherwise appends), so duplicate keys cannot
  arise from parsing, matching `json.loads`.
- JSON numeric literals are modelled as integers; fractional/exponent
  literals make the modelled parser fail where CPython would produce a
  float.  No claim below depends on float-bearing content.
- Fallible Python code is modelled with `Except`/`Option`; an exception
  that propagates out of a Python function is an `Except.error`.
- Network and model backends are oracles passed as function arguments.
-/

set_option autoImplicit false

namespace MCPLab

/-- JSON values, as produced by `json.loads` in the Python sources. -/
inductive Json where
  | null
  | bool (b : Bool)
  | num (n : Int)
  | str (s : String)
  | arr (elems : List Json)
  | obj (fields : List (String × Json))

/-- First-match association-list lookup, the read side of a Python dict. -/
def alookup {α : Type} : List (String × α) → String → Option α
  | [], _ => none
  | (k₁, v) :: rest, k => if k₁ = k then some v else alookup rest k

/-- Python-dict assignment: replace the value of an existing key in place,
otherwise append the new binding at the end. -/
def aInsert {α : Type} : List (String × α) → String → α → List (String × α)
  | [], k, v => [(k, v)]
  | (k₁, v₁) :: rest, k, v =>
    if k₁ = k then (k₁, v) :: rest else (k₁, v₁) :: aInsert rest k v

/-- Insertion into a JSON object with Python-dict semantics. -/
def objInsert (kvs : List (String × Json)) (k : String) (v : Json) :
    List (String × Json) :=
  aInsert kvs k v

/-- Python truthiness on JSON values (`bool(x)`). -/
def pyTruthy : Json → Bool
  | .null => false
  | .bool b => b
  | .num n => n ≠ 0
  | .str s => s ≠ ""
  | .arr xs => !xs.isEmpty
  | .obj kvs => !kvs.isEmpty

/-- The whitespace characters stripped by Python `str.strip()`. -/
def isPyWhitespace (c : Char) : Bool :=
  c == ' ' || c == '\t' || c == '\n' || c == '\r' || c == '\x0b' || c == '\x0c'

/-- Python `str.strip()` on the character list. -/
def pyStripList (cs : List Char) : List Char :=
  ((cs.dropWhile isPyWhitespace).reverse.dropWhile isPyWhitespace).reverse

/-- Python `str.strip()`. -/
def pyStrip (s : String) : String :=
  String.mk (pyStripList s.data)

/-- Index of the first occurrence of a character. -/
def firstIdxOf (c : Char) : List Char → Option Nat
  | [] => none
  | x :: xs => if x = c then some 0 else (firstIdxOf c xs).map (· + 1)

/-- Index of the last occurrence of a character. -/
def lastIdxOf (c : Char) (cs : List Char) : Option Nat :=
  (firstIdxOf c cs.reverse).map (fun i => cs.length - 1 - i)

/-- The greedy regex search `re.search(r"(\{.*\})", content, re.DOTALL)` from
`LLMClient.parse_tool_calls`: leftmost match of a greedy brace-to-brace
pattern, i.e. the span from the first opening brace to the last closing
brace, when the former precedes the latter. -/
def braceSearch (cs : List Char) : Option (List Char) :=
  match firstIdxOf '\x7b' cs, lastIdxOf '\x7d' cs with
  | some i, some j => if i < j then some ((cs.drop i).take (j - i + 1)) else none
  | _, _ => none

/-- Escape characters that are legal after a backslash in JSON text. -/
def validJsonEscapes : List Char :=
  ['"', '\\', '/', 'b', 'f', 'n', 'r', 't', 'u']

/-- Modelled from the spec: `lib.sanitizers.clean_json_text` is imported by
`llm_client.py` but `lib/sanitizers.py` is absent from the sources.  The
spec describes it as a JSON-repair step that fixes common malformed-escape
artifacts (invalid backslash escapes) so that otherwise-valid JSON is not
rejected; modelled as dropping every backslash that does not introduce a
legal JSON escape, leaving valid JSON text unchanged. -/
def cleanJsonChars : List Char → List Char
  | [] => []
  | ['\\'] => []
  | '\\' :: c :: rest =>
    if validJsonEscapes.contains c then '\\' :: c :: cleanJsonChars rest
    else c :: cleanJsonChars rest
  | c :: rest => c :: cleanJsonChars rest

/-- Modelled from the spec: string version of the JSON-repair step
(`clean_json_text` in the missing `lib/sanitizers.py`). -/
def clean_json_text (s : String) : String :=
  String.mk (cleanJsonChars s.data)

/-- JSON structural whitespace. -/
def isJsonWs (c : Char) : Bool :=
  c == ' ' || c == '\t' || c == '\n' || c == '\r'

/-- Skip JSON structural whitespace. -/
def skipWs (cs : List Char) : List Char :=
  cs.dropWhile isJsonWs

/-- Value of a hexadecimal digit. -/
def hexVal (c : Char) : Option Nat :=
  if '0' ≤ c ∧ c ≤ '9' then some (c.toNat - '0'.toNat)
  else if 'a' ≤ c ∧ c ≤ 'f' then some (c.toNat - 'a'.toNat + 10)
  else if 'A' ≤ c ∧ c ≤ 'F' then some (c.toNat - 'A'.toNat + 10)
  else none

/-- Decode of a single-character JSON escape. -/
def unescapeChar (c : Char) : Option Char :=
  if c = '"' then some '"'
  else if c = '\\' then some '\\'
  else if c = '/' then some '/'
  else if c = 'b' then some '\x08'
  else if c = 'f' then some '\x0c'
  else if c = 'n' then some '\n'
  else if c = 'r' then some '\r'
  else if c = 't' then some '\t'
  else none

/-- Parse the body of a JSON string literal (after the opening quote),
returning the decoded characters and the remaining input. -/
def parseStrBody : List Char → Option (List Char × List Char)
  | [] => none
  | c :: rest =>
    if c = '"' then some ([], rest)
    else if c = '\\' then
      match rest with
      | [] => none
      | e :: rest₂ =>
        if e = 'u' then
          match rest₂ with
          | a :: b :: c₂ :: d :: rest₃ =>
            match hexVal a, hexVal b, hexVal c₂, hexVal d with
            | some ha, some hb, some hc, some hd =>
              match parseStrBody rest₃ with
              | some (tail, rem) =>
                some (Char.ofNat (((ha * 16 + hb) * 16 + hc) * 16 + hd) :: tail, rem)
              | none => none
            | _, _, _, _ => none
          | _ => none
        else
          match unescapeChar e with
          | some ec =>
            match parseStrBody rest₂ with
            | some (tail, rem) => some (ec :: tail, rem)
            | none => none
          | none => none
    else
      match parseStrBody rest with
      | some (tail, rem) => some (c :: tail, rem)
      | none => none

/-- Accumulate a run of decimal digits into a natural number. -/
def digitsToNat (ds : List Char) : Nat :=
  ds.foldl (fun acc c => acc * 10 + (c.toNat - '0'.toNat)) 0

/-- Parse a JSON integer literal starting at the given input (sign already
handled by the caller); fails when a fraction or exponent follows, since
numbers are modelled as integers. -/
def parseNatNum (cs : List Char) : Option (Nat × List Char) :=
  let (ds, rest) := cs.span Char.isDigit
  if ds.isEmpty then none
  else
    match rest with
    | c :: _ => if c = '.' ∨ c = 'e' ∨ c = 'E' then none else some (digitsToNat ds, rest)
    | [] => some (digitsToNat ds, rest)

/-- Stack frames of the JSON parsing machine: a partially parsed array, or a
partially parsed object together with the key whose value is being read. -/
inductive PFrame where
  | arrF (items : List Json)
  | objF (fields : List (String × Json)) (pendingKey : String)

/-- One-pass JSON parsing machine (models `json.loads`).  `deliver` holds a
completed value waiting to be attached to the enclosing frame; fuel is an
upper bound on the number of steps (each step consumes input). -/
def pdrive : Nat → List PFrame → Option Json → List Char → Option (Json × List Char)
  | 0, _, _, _ => none
  | Nat.succ fuel, stack, some v, cs =>
    match stack with
    | [] => some (v, cs)
    | .arrF items :: st =>
      match skipWs cs with
      | ',' :: r => pdrive fuel (.arrF (items ++ [v]) :: st) none r
      | ']' :: r => pdrive fuel st (some (.arr (items ++ [v]))) r
      | _ => none
    | .objF kvs k :: st =>
      match skipWs cs with
      | ',' :: r =>
        match skipWs r with
        | '"' :: r₂ =>
          match parseStrBody r₂ with
          | some (kcs, r₃) =>
            match skipWs r₃ with
            | ':' :: r₄ =>
              pdrive fuel (.objF (objInsert kvs k v) (String.mk kcs) :: st) none r₄
            | _ => none
          | none => none
        | _ => none
      | '\x7d' :: r => pdrive fuel st (some (.obj (objInsert kvs k v))) r
      | _ => none
  | Nat.succ fuel, stack, none, cs =>
    match skipWs cs with
    | 'n' :: 'u' :: 'l' :: 'l' :: r => pdrive fuel stack (some .null) r
    | 't' :: 'r' :: 'u' :: 'e' :: r => pdrive fuel stack (some (.bool true)) r
    | 'f' :: 'a' :: 'l' :: 's' :: 'e' :: r => pdrive fuel stack (some (.bool false)) r
    | '"' :: r =>
      match parseStrBody r with
      | some (scs, r₂) => pdrive fuel stack (some (.str (String.mk scs))) r₂
      | none => none
    | '[' :: r =>
      match skipWs r with
      | ']' :: r₂ => pdrive fuel stack (some (.arr [])) r₂
      | r' => pdrive fuel (.arrF [] :: stack) none r'
    | '\x7b' :: r =>
      match skipWs r with
      | '\x7d' :: r₂ => pdrive fuel stack (some (.obj [])) r₂
      | '"' :: r₂ =>
        match parseStrBody r₂ with
        | some (kcs, r₃) =>
          match skipWs r₃ with
          | ':' :: r₄ => pdrive fuel (.objF [] (String.mk kcs) :: stack) none r₄
          | _ => none
        | none => none
      | _ => none
    | '-' :: r =>
      match parseNatNum r with
      | some (n, rest) => pdrive fuel stack (some (.num (-(n : Int)))) rest
      | none => none
    | c :: r =>
      if c.isDigit then
        match parseNatNum (c :: r) with
        | some (n, rest) => pdrive fuel stack (some (.num (n : Int))) rest
        | none => none
      else none
    | [] => none

/-- Model of `json.loads`: parse a complete JSON document, rejecting
trailing non-whitespace. -/
def jsonParse (s : String) : Option Json :=
  let cs := s.data
  match pdrive (cs.length + 1) [] none cs with
  | some (v, rest) => if skipWs rest = [] then some v else none
  | none => none

/-- Four-digit uppercase-free hexadecimal rendering used by `\uXXXX`
escapes in `json.dumps` output. -/
def hexDigit (n : Nat) : Char :=
  if n < 10 then Char.ofNat ('0'.toNat + n) else Char.ofNat ('a'.toNat + (n - 10))

/-- Render a code point as a `\uXXXX` escape. -/
def uEscape (n : Nat) : String :=
  String.mk ['\\', 'u', hexDigit (n / 4096 % 16), hexDigit (n / 256 % 16),
    hexDigit (n / 16 % 16), hexDigit (n % 16)]

/-- Escape one character the way `json.dumps` (default `ensure_ascii`)
does. -/
def jsonEscapeChar (c : Char) : String :=
  if c = '"' then "\\\""
  else if c = '\\' then "\\\\"
  else if c = '\n' then "\\n"
  else if c = '\t' then "\\t"
  else if c = '\r' then "\\r"
  else if c.toNat < 32 ∨ c.toNat > 126 then uEscape c.toNat
  else String.singleton c

/-- Quote and escape a string as a JSON string literal. -/
def jsonQuote (s : String) : String :=
  "\"" ++ String.join (s.data.map jsonEscapeChar) ++ "\""

mutual

/-- Model of `json.dumps` with default separators, so array items and
object members are joined by a comma-space and keys by a colon-space. -/
def jsonDumps : Json → String
  | .null => "null"
  | .bool true => "true"
  | .bool false => "false"
  | .num n => toString n
  | .str s => jsonQuote s
  | .arr [] => "[]"
  | .arr (x :: xs) => "[" ++ jsonDumps x ++ dumpsTail xs ++ "]"
  | .obj [] => "\x7b\x7d"
  | .obj ((k, v) :: kvs) =>
    "\x7b" ++ jsonQuote k ++ ": " ++ jsonDumps v ++ dumpsFieldsTail kvs ++ "\x7d"

/-- Comma-separated rendering of the remaining array items. -/
def dumpsTail : List Json → String
  | [] => ""
  | x :: xs => ", " ++ jsonDumps x ++ dumpsTail xs

/-- Comma-separated rendering of the remaining object members. -/
def dumpsFieldsTail : List (String × Json) → String
  | [] => ""
  | (k, v) :: kvs => ", " ++ jsonQuote k ++ ": " ++ jsonDumps v ++ dumpsFieldsTail kvs

end

/-! Decision parser (`LLMClient.parse_tool_calls` in `lib/llm_client.py`). -/

/-- The model response message consumed by `parse_tool_calls`: the
structured `tool_calls` field (defaulting to the empty list) and the
free-text `content` field (defaulting to the empty string). -/
structure LLMMessage where
  tool_calls : List Json
  content : String

/-- Python `str.startswith`, on the character lists so that it reduces
in the kernel. -/
def pyStartsWith (s pre : String) : Bool :=
  pre.data.isPrefixOf s.data

/-- Python `str.endswith`, on the character lists so that it reduces in
the kernel. -/
def pyEndsWith (s post : String) : Bool :=
  post.data.reverse.isPrefixOf s.data.reverse

/-- Python `d.get(k)` on a JSON object (`None` when absent).  The parser
only applies it to values parsed from brace-delimited text, which are
always objects; other shapes return `none`. -/
def jsonGet (j : Json) (k : String) : Option Json :=
  match j with
  | .obj kvs => alookup kvs k
  | _ => none

/-- Python containment `k in x` as used on the parsed candidate object:
key membership for dicts, substring for strings, element membership for
lists.  The candidate always parses to a dict here, because the candidate
text is brace-delimited. -/
def jsonHasKey (j : Json) (k : String) : Bool :=
  match j with
  | .obj kvs => (alookup kvs k).isSome
  | .str s => (s.splitOn k).length > 1
  | .arr xs => xs.any (fun e => match e with | .str t => t = k | _ => false)
  | _ => false

/-- Python `a or b` over `dict.get` results, with Python `None` rendered as
JSON null: the first operand when truthy, otherwise the second. -/
def pyOr (a b : Option Json) : Json :=
  match a with
  | some v => if pyTruthy v then v else (b.getD Json.null)
  | none => b.getD Json.null

/-- Model of `LLMClient.parse_tool_calls`: returns the pair
(tool calls or none, is-direct-answer flag).  Structured calls win; then
the free-text fallback tries the greedy brace regex (or the whole content
when it is brace-delimited), repairs escapes, parses JSON, and synthesizes
one call when the object has a `name` key plus `parameters` or
`arguments`; every other shape degrades to the direct-answer result, and
blank content returns `(none, false)`.

This helper is the fallback tail of `parse_tool_calls`: repair escapes in
the candidate JSON text, parse it, and synthesize one call when the
object has a `name` key plus `parameters` or `arguments` (normalizing
`parameters` to `arguments` with Python `or` semantics); otherwise
classify as a direct answer. -/
def fallbackFromJsonText (js : String) : Option (List Json) × Bool :=
  let cleaned := clean_json_text js
  match jsonParse cleaned with
  | none => (none, true)
  | some fake =>
    if jsonHasKey fake "name" &&
        (jsonHasKey fake "parameters" || jsonHasKey fake "arguments") then
      let args := pyOr (jsonGet fake "parameters") (jsonGet fake "arguments")
      (some [Json.obj [("function",
        Json.obj [("name", (jsonGet fake "name").getD Json.null),
                  ("arguments", args)])]], false)
    else (none, true)

/-- Model of `LLMClient.parse_tool_calls` (continued): structured calls
win; then the free-text fallback applies on the candidate JSON text. -/
def parse_tool_calls (m : LLMMessage) : Option (List Json) × Bool :=
  if !m.tool_calls.isEmpty then (some m.tool_calls, false)
  else
    let content := pyStrip m.content
    if content = "" then (none, false)
    else
      let jsonStr : Option String :=
        match braceSearch content.data with
        | some cs => some (String.mk cs)
        | none =>
          if pyStartsWith content "\x7b" && pyEndsWith content "\x7d" then some content
          else none
      match jsonStr with
      | none => (none, true)
      | some js => fallbackFromJsonText js

/-! Conversation construction (`lib/llm_client.py`). -/

/-- A conversation entry: either a plain role/content message, or the
assistant response message appended verbatim by `add_tool_results`. -/
inductive ConvEntry where
  | plain (role : String) (content : String)
  | assistant (m : LLMMessage)

/-- The hard-coded system prompt from `LLMClient.build_system_prompt`. -/
def build_system_prompt : String :=
  "You are a smart assistant with access to a database and a file system.\n\nWHEN USING THE DATABASE:\n1. The schema has \x27users\x27 (id, username, email) and \x27notes\x27 (id, user_id, title, content).\n2. To find who wrote a note, you MUST JOIN tables: `SELECT u.username FROM users u JOIN notes n ON u.id = n.user_id ...`\n3. Use ILIKE for case-insensitive search (e.g. `title ILIKE \x27%shopping%\x27`).\n4. ALWAYS put single quotes around string values! (Correct: `\x27%shopping%\x27`, Wrong: `%shopping%`)\n5. DO NOT use `+` to concatenate strings. Use standard SQL syntax.\n6. Example of a correct query:\n   `SELECT u.username FROM users u JOIN notes n ON u.id = n.user_id WHERE n.title ILIKE \x27%deployment%\x27`\n"

/-- Model of `LLMClient.create_conversation` with the default system
prompt. -/
def create_conversation (user_prompt : String) : List ConvEntry :=
  [.plain "system" build_system_prompt, .plain "user" user_prompt]

/-- Model of `ToolRouter.format_tool_results_for_llm`: one role-`tool`
message per result, whose content is the JSON serialization of the raw
result. -/
def format_tool_results_for_llm (results : List Json) : List ConvEntry :=
  results.map (fun r => .plain "tool" (jsonDumps r))

/-- Model of `LLMClient.add_tool_results`: append the assistant message,
then all tool result messages. -/
def add_tool_results (messages : List ConvEntry) (assistant_message : LLMMessage)
    (tool_results : List ConvEntry) : List ConvEntry :=
  messages ++ [.assistant assistant_message] ++ tool_results

/-! Execution router (`ToolRouter` in `lib/tool_router.py`). -/

/-- Python exceptions that can escape the modelled router internals. -/
inductive PyExc where
  | keyError (message : String)
  | typeError (message : String)
  | attributeError (message : String)
  | valueError (message : String)
  | connectionError (message : String)

/-- Escape one character for CPython string `repr`; non-printable
characters other than newline, carriage return and tab are left verbatim
(the modelled messages contain none). -/
def pyReprEscape (quote : Char) (c : Char) : String :=
  if c = '\\' then "\\\\"
  else if c = quote then String.mk ['\\', quote]
  else if c = '\n' then "\\n"
  else if c = '\r' then "\\r"
  else if c = '\t' then "\\t"
  else String.singleton c

/-- CPython `repr` of a string: single-quoted, or double-quoted when the
string contains a single quote but no double quote. -/
def pyRepr (s : String) : String :=
  let q : Char :=
    if s.data.contains '\x27' && !s.data.contains '"' then '"' else '\x27'
  String.singleton q ++ String.join (s.data.map (pyReprEscape q)) ++ String.singleton q

/-- Python `str(e)` on the modelled exceptions; `KeyError` renders the
`repr` of its argument, the others render their message. -/
def excStr : PyExc → String
  | .keyError m => pyRepr m
  | .typeError m => m
  | .attributeError m => m
  | .valueError m => m
  | .connectionError m => m

/-- Python type name of a JSON value, for exception text. -/
def pyTypeName : Json → String
  | .null => "NoneType"
  | .bool _ => "bool"
  | .num _ => "int"
  | .str _ => "str"
  | .arr _ => "list"
  | .obj _ => "dict"

/-- Python subscription `d[k]` with a string key: `KeyError` on a dict
missing the key, `TypeError` on non-dicts (representative message; the
exact CPython wording varies by receiver type and version). -/
def getItem (j : Json) (k : String) : Except PyExc Json :=
  match j with
  | .obj kvs =>
    match alookup kvs k with
    | some v => .ok v
    | none => .error (.keyError k)
  | _ => .error (.typeError s!"\x27{pyTypeName j}\x27 object is not subscriptable with a string key")

/-- Python `str(x)` on a JSON value as interpolated by f-strings;
containers are rendered via the JSON serializer as a representative of
CPython `repr` (the router only formats tool names, which are strings in
every well-formed request). -/
def pyStrJson : Json → String
  | .str s => s
  | .num n => toString n
  | .bool true => "True"
  | .bool false => "False"
  | .null => "None"
  | j => jsonDumps j

/-- Outcome of the HTTP POST to a tool backend, as seen by
`requests.post` in `ToolRouter.execute_tool`. -/
inductive NetOutcome where
  | timeout
  | connError (details : String)
  | resp (status : Nat) (text : String)

/-- A tool backend oracle: maps the request URL, tool name and arguments
to the network outcome. -/
def Net : Type :=
  String → Json → List (String × Json) → NetOutcome

/-- Model of `ToolRouter.route`: look the tool name up in the server map
and raise `KeyError` with the registry message when it is absent.
Non-string names are never registered, so they raise the same way. -/
def route (server_map : List (String × String)) (tool_name : Json) :
    Except PyExc String :=
  let available := String.intercalate ", " (server_map.map Prod.fst)
  match tool_name with
  | .str s =>
    match alookup server_map s with
    | some url => .ok url
    | none =>
      .error (.keyError
        (s!"Tool \x27{s}\x27 not found in registry.\n" ++ "Available tools: " ++ available))
  | other =>
    .error (.keyError
      (s!"Tool \x27{pyStrJson other}\x27 not found in registry.\n" ++ "Available tools: " ++ available))

/-- Decide whether `needle` occurs as a contiguous substring of `hay`. -/
def containsSub : List Char → List Char → Bool
  | [], needle => needle.isEmpty
  | c :: rest, needle => needle.isPrefixOf (c :: rest) || containsSub rest needle

/-- Substring containment on strings. -/
def strContains (hay needle : String) : Bool :=
  containsSub hay.data needle.data

/-- SQL statements the validation layer treats as destructive, per the
spec and the troubleshooting text in `lib/errors.py`. -/
def destructiveSqlKeywords : List String :=
  ["DROP", "DELETE", "ALTER"]

/-- Modelled from the spec: `lib.sanitizers.validate_tool_arguments` is
imported by `tool_router.py` but `lib/sanitizers.py` is absent from the
sources.  The spec requires tool-specific validation that rejects SQL
containing destructive statements for the query tool, raising so the
router records a failure outcome; other tools pass. -/
def validate_tool_arguments (tool_name : Json) (arguments : List (String × Json)) :
    Except PyExc Unit :=
  match tool_name with
  | .str "query_db" =>
    match alookup arguments "sql" with
    | some (.str q) =>
      if destructiveSqlKeywords.any (fun k => strContains q.toUpper k) then
        .error (.valueError
          "Destructive SQL blocked: the query may not contain DROP, DELETE, or ALTER")
      else .ok ()
    | _ => .ok ()
  | _ => .ok ()

/-- Fueled scan wrapping unquoted `%...%` patterns in single quotes while
leaving quoted regions untouched. -/
def fixSqlAux : Nat → Bool → List Char → List Char
  | 0, _, cs => cs
  | _, _, [] => []
  | Nat.succ fuel, inQuote, c :: rest =>
    if c = '\x27' then c :: fixSqlAux fuel (!inQuote) rest
    else if !inQuote && c == '%' then
      match rest.span (fun d => d ≠ '%' ∧ d ≠ '\x27') with
      | (inner, '%' :: tail) =>
        '\x27' :: '%' :: (inner ++ '%' :: '\x27' :: fixSqlAux fuel inQuote tail)
      | _ => c :: fixSqlAux fuel inQuote rest
    else c :: fixSqlAux fuel inQuote rest

/-- Modelled from the spec: `lib.sanitizers.fix_sql_args` is imported by
`tool_router.py` but `lib/sanitizers.py` is absent from the sources.  The
spec describes it as a narrow tool-specific fix-up repairing missing
quoting around string literals in SQL fragments; modelled as quoting bare
`%...%` patterns in the `sql` argument. -/
def fix_sql_args (arguments : List (String × Json)) : List (String × Json) :=
  arguments.map (fun p =>
    match p with
    | ("sql", .str q) => ("sql", .str (String.mk (fixSqlAux q.data.length false q.data)))
    | other => other)

/-- Modelled from the spec: `lib.sanitizers.sanitize_output` is imported
by `tool_router.py` but `lib/sanitizers.py` is absent from the sources.
The spec requires normalizing the backend's raw return shape (string,
list, null, object) into a uniform structured payload: objects pass
through, every other shape is wrapped as a `result` field. -/
def sanitize_output : Json → Json
  | .obj kvs => .obj kvs
  | v => .obj [("result", v)]

/-- Model of `ToolRouter.execute_tool`: validate, apply the SQL fix-up for
the query tool, route, dispatch over the network, check the HTTP status,
parse the body and sanitize the result; every failure is the exception
the Python code raises. -/
def execute_tool (net : Net) (server_map : List (String × String)) (timeout : Nat)
    (tool_name : Json) (arguments : List (String × Json)) : Except PyExc Json := do
  validate_tool_arguments tool_name arguments
  let arguments := match tool_name with
    | .str "query_db" => fix_sql_args arguments
    | _ => arguments
  let server_url ← route server_map tool_name
  match net (server_url ++ "/call") tool_name arguments with
  | .timeout =>
    .error (.connectionError s!"Tool \x27{pyStrJson tool_name}\x27 timed out after {timeout}s")
  | .connError e =>
    .error (.connectionError (s!"Cannot connect to server for tool \x27{pyStrJson tool_name}\x27" ++ ": " ++ e))
  | .resp status text =>
    if status ≠ 200 then
      .error (.valueError s!"Tool \x27{pyStrJson tool_name}\x27 failed: {text}")
    else
      match jsonParse text with
      | none => .error (.valueError "Expecting value: response body is not valid JSON")
      | some result => .ok (sanitize_output result)

/-- One level of unwrapping applied by `execute_tools` argument
normalization: a dict containing a `value` key is replaced by that entry,
everything else passes through. -/
def unwrapValue (v : Json) : Json :=
  match v with
  | .obj kvs =>
    match alookup kvs "value" with
    | some x => x
    | none => .obj kvs
  | _ => v

/-- The dict rebuilt by the argument-normalization loop of
`execute_tools`: each value unwrapped one level. -/
def normalizeFields (kvs : List (String × Json)) : List (String × Json) :=
  kvs.foldl (fun acc p => aInsert acc p.1 (unwrapValue p.2)) []

/-- The argument-normalization loop of `execute_tools`: iterate the raw
argument dict, unwrapping each value one level into a fresh dict; a
non-dict raises `AttributeError` at `raw_args.items()`. -/
def normalizeArgs (raw : Json) : Except PyExc (List (String × Json)) :=
  match raw with
  | .obj kvs => .ok (normalizeFields kvs)
  | _ => .error (.attributeError s!"\x27{pyTypeName raw}\x27 object has no attribute \x27items\x27")

/-- Model of `ToolRouter.execute_tools`: sequentially extract each call's
function name and raw arguments (a malformed entry raises and aborts the
batch, as in the source), normalize the arguments, execute the tool, and
record either the result or an error entry carrying the stringified
exception and the tool name. -/
def execute_tools (net : Net) (server_map : List (String × String)) (timeout : Nat) :
    List Json → Except PyExc (List Json)
  | [] => .ok []
  | tool_call :: rest =>
    match getItem tool_call "function" with
    | .error e => .error e
    | .ok fn =>
      match getItem fn "name" with
      | .error e => .error e
      | .ok func_name =>
        match getItem fn "arguments" with
        | .error e => .error e
        | .ok raw_args =>
          match normalizeArgs raw_args with
          | .error e => .error e
          | .ok normalized =>
            let result :=
              match execute_tool net server_map timeout func_name normalized with
              | .ok r => r
              | .error e => Json.obj [("error", Json.str (excStr e)), ("tool", func_name)]
            match execute_tools net server_map timeout rest with
            | .error e => .error e
            | .ok results => .ok (result :: results)

/-! Tool discovery (`lib/mcp_client.py`). -/

/-- A tool as returned by the MCP SDK `list_tools` call: name plus
optional description and input schema. -/
structure SDKTool where
  name : String
  description : Option String
  inputSchema : Option Json

/-- The default input schema substituted by `MCPClient.get_tools`. -/
def defaultInputSchema : Json :=
  .obj [("type", .str "object"), ("properties", .obj [])]

/-- A discovered tool dictionary as built by `MCPClient.get_tools`. -/
structure MCPTool where
  name : String
  description : String
  inputSchema : Json

/-- The per-tool conversion in `MCPClient.get_tools`: default the
description to the empty string and substitute the default schema when the
SDK schema is absent or falsy. -/
def convertSdkTool (t : SDKTool) : MCPTool :=
  { name := t.name
    description := t.description.getD ""
    inputSchema :=
      match t.inputSchema with
      | some s => if pyTruthy s then s else defaultInputSchema
      | none => defaultInputSchema }

/-- The tool-list conversion of `MCPClient.get_tools`. -/
def get_tools_convert (ts : List SDKTool) : List MCPTool :=
  ts.map convertSdkTool

/-- Model of `mcp_to_ollama_tool`: wrap an MCP tool dictionary in the
Ollama function-calling shape. -/
def mcp_to_ollama_tool (t : MCPTool) : Json :=
  .obj [("type", .str "function"),
        ("function", .obj [("name", .str t.name),
                           ("description", .str t.description),
                           ("parameters", t.inputSchema)])]

/-- Python `rstrip('/')`. -/
def rstripSlashes (s : String) : String :=
  String.mk (s.data.reverse.dropWhile (· = '/')).reverse

/-- The URL adjustment in `MCPClient.__init__`: strip trailing slashes and
append `/mcp` unless already present. -/
def mcpUrl (u : String) : String :=
  let u' := rstripSlashes u
  if pyEndsWith u' "/mcp" then u' else u' ++ "/mcp"

/-- The server-map registration loop of `_discover_all_tools_async`: enter
every discovered tool name into the map, pointing at the given backend. -/
def registerTools (c : List MCPTool) (url : String) (m : List (String × String)) :
    List (String × String) :=
  c.foldl (fun m t => aInsert m t.name url) m

/-- Model of `_discover_all_tools_async`: query the file backend then the
database backend, skipping a backend whose discovery fails; surviving
tools are appended to one catalog and entered into the server map keyed by
name (so the later backend wins name collisions), and the catalog is
converted to Ollama format. -/
def discover_all_tools (fileRes dbRes : Except String (List SDKTool))
    (mcp_file_url mcp_db_url : String) : List Json × List (String × String) :=
  let fileServer := mcpUrl mcp_file_url
  let dbServer := mcpUrl mcp_db_url
  let step₁ :
      List MCPTool × List (String × String) :=
    match fileRes with
    | .ok ts =>
      let c := get_tools_convert ts
      (c, registerTools c fileServer [])
    | .error _ => ([], [])
  let step₂ :
      List MCPTool × List (String × String) :=
    match dbRes with
    | .ok ts =>
      let c := get_tools_convert ts
      (step₁.1 ++ c, registerTools c dbServer step₁.2)
    | .error _ => step₁
  (step₂.1.map mcp_to_ollama_tool, step₂.2)

/-! Orchestration (`MCPAgent.run` in `agent.py`).  The reasoning backend
is modelled by oracles that return successfully; the empty-catalog, decision,
execution and synthesis branches are modelled in full. -/

/-- Event kinds yielded by the agent generator. -/
inductive EventType where
  | step_start
  | info
  | success
  | tool_call
  | tool_result
  | final_answer
  | error
deriving DecidableEq

/-- An event yielded by `MCPAgent.run`. -/
structure AgentEvent where
  type : EventType
  step : Nat
  message : String
  data : Option Json

/-- Event without attached data. -/
def ev (t : EventType) (step : Nat) (message : String) : AgentEvent :=
  ⟨t, step, message, none⟩

/-- Event with attached data. -/
def evD (t : EventType) (step : Nat) (message : String) (d : Json) : AgentEvent :=
  ⟨t, step, message, some d⟩

/-- Python exception class name, for `handle_error`. -/
def pyExcTypeName : PyExc → String
  | .keyError _ => "KeyError"
  | .typeError _ => "TypeError"
  | .attributeError _ => "AttributeError"
  | .valueError _ => "ValueError"
  | .connectionError _ => "ConnectionError"

/-- Model of `lib.errors.handle_error` for non-`MCPError` exceptions: the
generic educational wrapper text. -/
def handle_error (e : PyExc) : String :=
  let t := pyExcTypeName e
  let s := excStr e
  "\nUnexpected Error: " ++ t ++ "\n\n📚 What happened?\n   An unexpected error occurred: " ++ s ++ "\n\n🔧 What to try:\n\n   1. Check if all services are running:\n      → make test-servers\n\n   2. Review recent changes:\n      → What did you change before this error?\n\n   3. Check logs:\n      → docker compose logs\n\n   4. Restart everything:\n      → make down\n      → make up\n\n   5. If the error persists, it might be a bug:\n      → Check GitHub issues: https://github.com/yourname/mcp-lab/issues\n      → Include this error message and steps to reproduce\n\n🔍 Technical details:\n   Error type: " ++ t ++ "\n   Error message: " ++ s ++ "\n\n   Stack trace (for debugging):\n   " ++ s ++ "\n\n📖 Learn more: README.md section \x27Troubleshooting\x27\n"

/-- Message text of `lib.errors.MCPServerError`. -/
def mcpServerErrorMsg (server_name server_url details : String) : String :=
  let r := (server_name.toLower).replace " " "-"
  let base :=
    "Cannot connect to " ++ server_name ++ " at " ++ server_url ++
    "\n\n📚 What does this mean?\n   MCP servers provide \"tools\" that the agent uses to take actions.\n   The " ++ server_name ++ " is needed for certain operations but isn\x27t responding.\n\n🔧 How to fix:\n\n   1. Check if services are running:\n      → docker compose ps\n\n   2. If services are stopped, start them:\n      → make up\n\n   3. If services are running but unhealthy, restart them:\n      → make down\n      → make up\n\n   4. Check server logs for errors:\n      → docker compose logs " ++ r ++ "\n\n   5. Verify network connectivity:\n      → docker compose exec mcp-agent ping " ++ r ++ "\n"
  let base := if details ≠ "" then base ++ "\n🔍 Technical details:\n   " ++ details ++ "\n" else base
  base ++ "\n📖 Learn more: README.md section \x27Troubleshooting\x27\n"

/-- Tool-specific guidance section of `lib.errors.ToolExecutionError`. -/
def toolExecutionGuidance (tool_name : String) : String :=
  if tool_name = "read_file" then
    "\n      • File doesn\x27t exist: Check the file path\n        → ls mcp-file/data/\n\n      • Path traversal blocked: Use relative paths only\n        → Good: \"notes.txt\"\n        → Bad: \"../../etc/passwd\"\n\n      • File too large: Current limit is 10MB\n        → Check file size: ls -lh mcp-file/data/\n"
  else if tool_name = "query_db" then
    "\n      • SQL syntax error: Check your query syntax\n        → PostgreSQL docs: https://www.postgresql.org/docs/\n\n      • Missing quotes: String literals need quotes\n        → Good: WHERE title = \x27Shopping\x27\n        → Bad: WHERE title = Shopping\n\n      • Table doesn\x27t exist: Check available tables\n        → Run: make agent MSG=\"What tables are in the database?\"\n\n      • Permission denied: Query might be blocked by security rules\n        → Check if using DROP, DELETE, or ALTER\n"
  else
    "\n      • Check that the tool server is running: docker compose ps\n      • Check server logs: docker compose logs\n      • Verify arguments match the tool\x27s schema\n"

/-- Message text of `lib.errors.ToolExecutionError` (the agent always
passes no arguments). -/
def toolExecutionErrorMsg (tool_name reason : String) : String :=
  "Tool \x27" ++ tool_name ++ "\x27 failed to execute" ++
  "\n\n📚 What happened?\n   The agent tried to use the \x27" ++ tool_name ++ "\x27 tool, but it failed:\n   " ++ reason ++ "\n" ++
  "\n🔧 How to fix:\n\n   Common issues with " ++ tool_name ++ ":\n" ++
  toolExecutionGuidance tool_name ++
  "\n📖 Learn more: README.md section \x27Adding Tools\x27\n"

/-- The wrapping the agent's execution step applies to an exception that
escapes `execute_tools`: `ConnectionError` becomes `MCPServerError`, any
other exception becomes `ToolExecutionError` for the unknown tool; both
are `MCPError`s, so the run loop yields their message. -/
def handleRunExc (e : PyExc) : String :=
  match e with
  | .connectionError m => mcpServerErrorMsg "MCP Server" "unknown" m
  | _ => toolExecutionErrorMsg "unknown" (excStr e)

/-- The event loop announcing each tool call before execution.  Each entry
is read with `tc.get("function", {}).get(...)`; a non-dict entry raises
`AttributeError` out of the generator body, ending the event stream. -/
def toolCallEvents : List Json → List AgentEvent × Option PyExc
  | [] => ([], none)
  | tc :: rest =>
    match tc with
    | .obj kvs =>
      match (alookup kvs "function").getD (Json.obj []) with
      | .obj fkvs =>
        let nm := (alookup fkvs "name").getD (Json.str "unknown")
        let args := (alookup fkvs "arguments").getD (Json.obj [])
        let e := evD .tool_call 4 s!"Calling {pyStrJson nm}"
          (Json.obj [("name", nm), ("arguments", args)])
        let (evs, exc) := toolCallEvents rest
        (e :: evs, exc)
      | other =>
        ([], some (.attributeError s!"\x27{pyTypeName other}\x27 object has no attribute \x27get\x27"))
    | other =>
      ([], some (.attributeError s!"\x27{pyTypeName other}\x27 object has no attribute \x27get\x27"))

/-- The per-result event yielded after execution. -/
def toolResultEvent (r : Json) : AgentEvent :=
  let tname := pyStrJson ((jsonGet r "tool").getD (Json.str "unknown"))
  evD .tool_result 4 s!"Got result from {tname}" r

/-- Model of the `MCPAgent.run` generator.  Inputs: the configured model
name, the discovery result, the first reasoning response message, the tool
network oracle, the second reasoning call as an oracle from the assembled
conversation to its response content, and the user prompt.  The reasoning
backend itself is assumed reachable; its connection-failure branch is
outside this model. -/
def MCPAgent.run (model_name : String) (disc : List Json × List (String × String))
    (message : LLMMessage) (net : Net) (secondChat : List ConvEntry → String)
    (prompt : String) : List AgentEvent :=
  let tools := disc.1
  let server_map := disc.2
  let e₁ := [ev .step_start 1 "Discovery & Assembly"]
  if tools.isEmpty then
    e₁ ++ [ev .error 1 "No tools available! Make sure MCP servers are running."]
  else
    let e₂ := e₁ ++
      [evD .success 1 s!"Loaded {tools.length} tools"
        (Json.obj [("tool_count", Json.num tools.length)]),
       ev .step_start 2 "Reasoning",
       ev .info 2 s!"Sending to {model_name}...",
       ev .success 2 "LLM responded",
       ev .step_start 3 "Decision Evaluation"]
    match parse_tool_calls message with
    | (some (tc₀ :: tcs), _) =>
      let tool_calls := tc₀ :: tcs
      let e₃ := e₂ ++
        [evD .info 3 s!"LLM decided to use {tool_calls.length} tool(s)"
          (Json.obj [("tool_calls", Json.arr tool_calls)]),
         ev .step_start 4 "Tool Execution"]
      match toolCallEvents tool_calls with
      | (tcEvs, some exc) => e₃ ++ tcEvs ++ [ev .error 0 (handle_error exc)]
      | (tcEvs, none) =>
        let e₄ := e₃ ++ tcEvs
        match execute_tools net server_map 10 tool_calls with
        | .error exc => e₄ ++ [ev .error 0 (handleRunExc exc)]
        | .ok results =>
          let e₅ := e₄ ++ results.map toolResultEvent ++
            [ev .step_start 5 "Synthesis",
             ev .info 5 "Sending tool outputs back to LLM..."]
          let messages := add_tool_results (create_conversation prompt) message
            (format_tool_results_for_llm results)
          e₅ ++ [ev .final_answer 6 (secondChat messages)]
    | _ =>
      e₂ ++ [ev .info 3 "LLM answered directly (no tools needed)",
             ev .final_answer 6 message.content]

/-- The contents of the final-answer events of a run, in order. -/
def finalAnswers (events : List AgentEvent) : List String :=
  (events.filter (fun e => e.type = EventType.final_answer)).map AgentEvent.message

/-! Definitions used to state the claims. -/

/-- The shape `execute_tools` reads from each entry: a dict with a
`function` dict holding a string `name` and a dict `arguments`; returns
those two pieces.  This is the shape of a well-formed
ToolInvocationRequest (the spec's data model gives requests a string tool
name and a mapping of raw arguments). -/
def callParts (j : Json) : Option (String × List (String × Json)) :=
  match j with
  | .obj kvs =>
    match alookup kvs "function" with
    | some (.obj fkvs) =>
      match alookup fkvs "name", alookup fkvs "arguments" with
      | some (.str nm), some (.obj akvs) => some (nm, akvs)
      | _, _ => none
    | _ => none
  | _ => none

/-- A well-formed tool-invocation request entry. -/
def isWFCall (j : Json) : Bool :=
  (callParts j).isSome

/-- The outcome `execute_tools` records for one well-formed request: the
tool result on success, or the error entry naming the stringified
exception and the tool, when the execution raised. -/
def callOutcome (net : Net) (server_map : List (String × String)) (timeout : Nat)
    (j : Json) : Json :=
  match callParts j with
  | some (nm, akvs) =>
    match execute_tool net server_map timeout (.str nm) (normalizeFields akvs) with
    | .ok r => r
    | .error e => .obj [("error", .str (excStr e)), ("tool", .str nm)]
  | none => .null

/-- Whether a value is a dict containing a `value` key — the condition
`execute_tools` actually unwraps on. -/
def hasValueKey (v : Json) : Bool :=
  match v with
  | .obj kvs => (alookup kvs "value").isSome
  | _ => false

/-- Concrete scenario for claim C4: a registered file tool. -/
def c4ServerMap : List (String × String) :=
  [("read_file", "http://mcp-file:3333/mcp")]

/-- Concrete scenario for claim C4: a backend stub answering 200 with the
JSON string payload `hello`. -/
def c4Net : Net :=
  fun _ _ _ => .resp 200 "\"hello\""

/-- Concrete scenario for claim C4: a request for the registered tool. -/
def c4Call1 : Json :=
  .obj [("function", .obj [("name", .str "read_file"),
                           ("arguments", .obj [("path", .str "notes.txt")])])]

/-- Concrete scenario for claim C4: a request for an unregistered tool. -/
def c4Call2 : Json :=
  .obj [("function", .obj [("name", .str "missing_tool"),
                           ("arguments", .obj [])])]

/-- Concrete scenario for claim C4: the assistant message requesting both
tools. -/
def c4Message : LLMMessage :=
  ⟨[c4Call1, c4Call2], ""⟩

/-- Concrete scenario for claim C4: a one-tool catalog, so the run does
not abort at discovery. -/
def c4Tools : List Json :=
  [mcp_to_ollama_tool ⟨"read_file", "", defaultInputSchema⟩]

/-- The success entry produced in the C4 scenario: the sanitized stub
payload. -/
def c4Success : Json :=
  .obj [("result", .str "hello")]

/-- The failure entry produced in the C4 scenario: the stringified
registry `KeyError` plus the tool name. -/
def c4Failure : Json :=
  .obj [("error", .str (pyRepr
           ("Tool \x27missing_tool\x27 not found in registry.\n" ++
            "Available tools: read_file"))),
        ("tool", .str "missing_tool")]

/-- The Scenario B content text: a bare JSON tool call with a
`parameters` key. -/
def c3Content : String :=
  "\x7b\"name\": \"query_db\", \"parameters\": \x7b\"sql\": \"SELECT 1\"\x7d\x7d"

/-! Helper lemmas. -/

theorem alookup_aInsert {α : Type} (m : List (String × α)) (k k' : String) (v : α) :
    alookup (aInsert m k v) k' = if k' = k then some v else alookup m k' := by
  induction m with
  | nil => simp [aInsert, alookup, eq_comm]
  | cons p rest ih =>
    obtain ⟨k₁, v₁⟩ := p
    by_cases h₁ : k₁ = k
    · subst h₁
      simp only [aInsert, if_pos rfl, alookup]
      by_cases h₂ : k' = k₁ <;> simp [alookup, h₂, eq_comm]
    · simp only [aInsert, if_neg h₁, alookup]
      by_cases h₂ : k₁ = k'
      · subst h₂
        simp [alookup, if_neg h₁]
      · simp [alookup, h₂, ih]

theorem keys_aInsert {α : Type} (m : List (String × α)) (k : String) (v : α) :
    (aInsert m k v).map Prod.fst =
      if k ∈ m.map Prod.fst then m.map Prod.fst else m.map Prod.fst ++ [k] := by
  induction m with
  | nil => simp [aInsert]
  | cons p rest ih =>
    obtain ⟨k₁, v₁⟩ := p
    by_cases h₁ : k₁ = k
    · subst h₁
      simp [aInsert]
    · simp only [aInsert, if_neg h₁, List.map_cons, ih]
      by_cases h₂ : k ∈ rest.map Prod.fst
      · simp [h₂, List.mem_cons, Ne.symm h₁]
      · simp [h₂, List.mem_cons, Ne.symm h₁]

theorem nodup_keys_aInsert {α : Type} (m : List (String × α)) (k : String) (v : α)
    (h : (m.map Prod.fst).Nodup) : ((aInsert m k v).map Prod.fst).Nodup := by
  rw [keys_aInsert]
  by_cases hk : k ∈ m.map Prod.fst
  · simpa [hk]
  · simp [hk, List.nodup_append, h]

theorem alookup_registerTools (c : List MCPTool) (url : String)
    (m : List (String × String)) (k : String) :
    alookup (registerTools c url m) k =
      if k ∈ c.map MCPTool.name then some url else alookup m k := by
  induction c generalizing m with
  | nil => simp [registerTools]
  | cons t ts ih =>
    have step : registerTools (t :: ts) url m = registerTools ts url (aInsert m t.name url) := rfl
    rw [step, ih]
    by_cases h₁ : k ∈ ts.map MCPTool.name
    · simp [h₁]
    · simp only [h₁, if_false, alookup_aInsert]
      by_cases h₂ : k = t.name <;> simp [h₁, h₂]

theorem nodup_keys_registerTools (c : List MCPTool) (url : String)
    (m : List (String × String)) (h : (m.map Prod.fst).Nodup) :
    ((registerTools c url m).map Prod.fst).Nodup := by
  induction c generalizing m with
  | nil => simpa [registerTools]
  | cons t ts ih =>
    have step : registerTools (t :: ts) url m = registerTools ts url (aInsert m t.name url) := rfl
    rw [step]
    exact ih _ (nodup_keys_aInsert _ _ _ h)

theorem callParts_spec (j : Json) (nm : String) (akvs : List (String × Json))
    (h : callParts j = some (nm, akvs)) :
    ∃ kvs fkvs, j = .obj kvs ∧ alookup kvs "function" = some (.obj fkvs) ∧
      alookup fkvs "name" = some (.str nm) ∧
      alookup fkvs "arguments" = some (.obj akvs) := by
  cases j with
  | obj kvs =>
    simp only [callParts] at h
    rcases hfn : alookup kvs "function" with _ | fn
    · rw [hfn] at h; simp at h
    · rw [hfn] at h
      cases fn with
      | obj fkvs =>
        simp at h
        rcases hnm : alookup fkvs "name" with _ | nv
        · rw [hnm] at h; simp at h
        · rw [hnm] at h
          cases nv with
          | str s =>
            rcases harg : alookup fkvs "arguments" with _ | av
            · rw [harg] at h; simp at h
            · rw [harg] at h
              cases av with
              | obj okvs =>
                simp at h
                exact ⟨kvs, fkvs, rfl, hfn, by rw [hnm, h.1], by rw [harg, h.2]⟩
              | null => simp at h
              | bool b => simp at h
              | num n => simp at h
              | str t => simp at h
              | arr xs => simp at h
          | null => simp at h
          | bool b => simp at h
          | num n => simp at h
          | arr xs => simp at h
          | obj o => simp at h
      | null => simp at h
      | bool b => simp at h
      | num n => simp at h
      | str s => simp at h
      | arr xs => simp at h
  | null => simp [callParts] at h
  | bool b => simp [callParts] at h
  | num n => simp [callParts] at h
  | str s => simp [callParts] at h
  | arr xs => simp [callParts] at h

theorem execute_tools_eq_map (net : Net) (server_map : List (String × String))
    (timeout : Nat) (calls : List Json) (h : ∀ c ∈ calls, isWFCall c = true) :
    execute_tools net server_map timeout calls =
      .ok (calls.map (callOutcome net server_map timeout)) := by
  induction calls with
  | nil => rfl
  | cons c cs ih =>
    have hc : isWFCall c = true := h c (List.mem_cons_self c cs)
    obtain ⟨⟨nm, akvs⟩, hcp⟩ := Option.isSome_iff_exists.mp hc
    obtain ⟨kvs, fkvs, rfl, hfn, hnm, harg⟩ := callParts_spec _ _ _ hcp
    have hcs : ∀ x ∈ cs, isWFCall x = true := fun x hx => h x (List.mem_cons_of_mem _ hx)
    simp [execute_tools, getItem, hfn, hnm, harg, normalizeArgs, ih hcs,
      callOutcome, hcp]

theorem toolCallEvents_wf (calls : List Json) (h : ∀ c ∈ calls, isWFCall c = true) :
    (toolCallEvents calls).2 = none := by
  induction calls with
  | nil => rfl
  | cons c cs ih =>
    have hc : isWFCall c = true := h c (List.mem_cons_self c cs)
    obtain ⟨⟨nm, akvs⟩, hcp⟩ := Option.isSome_iff_exists.mp hc
    obtain ⟨kvs, fkvs, rfl, hfn, hnm, harg⟩ := callParts_spec _ _ _ hcp
    have hcs : ∀ x ∈ cs, isWFCall x = true := fun x hx => h x (List.mem_cons_of_mem _ hx)
    rcases hrest : toolCallEvents cs with ⟨evs, exc⟩
    have ih' := ih hcs
    rw [hrest] at ih'
    simp only [toolCallEvents, hfn, Option.getD_some, hrest, ih']

theorem finalAnswers_append (a b : List AgentEvent) :
    finalAnswers (a ++ b) = finalAnswers a ++ finalAnswers b := by
  simp [finalAnswers]

theorem finalAnswers_toolCallEvents (calls : List Json) :
    finalAnswers (toolCallEvents calls).1 = [] := by
  induction calls with
  | nil => rfl
  | cons c cs ih =>
    cases c with
    | obj kvs =>
      rcases hcs : toolCallEvents cs with ⟨evs, exc⟩
      rw [hcs] at ih
      cases hfn : (alookup kvs "function").getD (Json.obj []) with
      | obj fkvs => simp [toolCallEvents, hfn, hcs, finalAnswers, evD] at ih ⊢; exact ih
      | null => simp [toolCallEvents, hfn, finalAnswers]
      | bool b => simp [toolCallEvents, hfn, finalAnswers]
      | num n => simp [toolCallEvents, hfn, finalAnswers]
      | str s => simp [toolCallEvents, hfn, finalAnswers]
      | arr xs => simp [toolCallEvents, hfn, finalAnswers]
    | null => rfl
    | bool b => rfl
    | num n => rfl
    | str s => rfl
    | arr xs => rfl

theorem finalAnswers_map_toolResult (results : List Json) :
    finalAnswers (results.map toolResultEvent) = [] := by
  induction results with
  | nil => rfl
  | cons r rs ih =>
    have step : finalAnswers (toolResultEvent r :: rs.map toolResultEvent) =
        finalAnswers (rs.map toolResultEvent) := by
      simp [finalAnswers, toolResultEvent, evD]
    rw [List.map_cons, step, ih]

/-! Claim theorems. -/

/-- C1: for every batch of well-formed tool-invocation requests,
`execute_tools` returns exactly as many results as requests, in request
order; the i-th result is the i-th request's outcome, which is the tool
result when its execution succeeds and an error entry naming the
stringified exception and the tool when it fails — failures are
represented, never dropped, and never propagated as an exception that
aborts the batch. -/
theorem C1_execute_tools_batch (net : Net) (server_map : List (String × String))
    (timeout : Nat) (calls : List Json)
    (hwf : ∀ c ∈ calls, isWFCall c = true) :
    ∃ results, execute_tools net server_map timeout calls = .ok results ∧
      results.length = calls.length ∧
      ∀ i (hi : i < calls.length),
        results[i]? = some (callOutcome net server_map timeout calls[i]) ∧
        ((∃ nm akvs r, callParts calls[i] = some (nm, akvs) ∧
            execute_tool net server_map timeout (.str nm) (normalizeFields akvs) = .ok r ∧
            callOutcome net server_map timeout calls[i] = r) ∨
         (∃ nm akvs e, callParts calls[i] = some (nm, akvs) ∧
            execute_tool net server_map timeout (.str nm) (normalizeFields akvs) = .error e ∧
            callOutcome net server_map timeout calls[i] =
              .obj [("error", .str (excStr e)), ("tool", .str nm)])) := by
  refine ⟨calls.map (callOutcome net server_map timeout),
    execute_tools_eq_map net server_map timeout calls hwf, by simp, ?_⟩
  intro i hi
  constructor
  · simp [List.getElem?_map, List.getElem?_eq_getElem hi]
  · have hmem : calls[i] ∈ calls := List.getElem_mem hi
    have hc : isWFCall calls[i] = true := hwf _ hmem
    obtain ⟨⟨nm, akvs⟩, hcp⟩ := Option.isSome_iff_exists.mp hc
    rcases hex : execute_tool net server_map timeout (.str nm) (normalizeFields akvs)
      with e | r
    · exact Or.inr ⟨nm, akvs, e, hcp, hex, by simp [callOutcome, hcp, hex]⟩
    · exact Or.inl ⟨nm, akvs, r, hcp, hex, by simp [callOutcome, hcp, hex]⟩

/-- Witness for C1: the two-request batch of the C4 scenario is
well-formed, and the theorem instantiates on it. -/
theorem C1_execute_tools_batch_witness :
    (∀ c ∈ [c4Call1, c4Call2], isWFCall c = true) ∧
    ∃ results, execute_tools c4Net c4ServerMap 10 [c4Call1, c4Call2] = .ok results ∧
      results.length = 2 := by
  have hwf : ∀ c ∈ [c4Call1, c4Call2], isWFCall c = true := by decide
  obtain ⟨results, h1, h2, -⟩ := C1_execute_tools_batch c4Net c4ServerMap 10 [c4Call1, c4Call2] hwf
  exact ⟨hwf, results, h1, h2⟩

theorem fallback_shape (js : String) :
    (∃ tc, fallbackFromJsonText js = (some [tc], false)) ∨
    fallbackFromJsonText js = (none, true) := by
  unfold fallbackFromJsonText
  rcases hp : jsonParse (clean_json_text js) with _ | fake
  · right; simp [hp]
  · by_cases hk : (jsonHasKey fake "name" &&
        (jsonHasKey fake "parameters" || jsonHasKey fake "arguments")) = true
    · left
      exact ⟨Json.obj [("function",
        Json.obj [("name", (jsonGet fake "name").getD Json.null),
                  ("arguments", pyOr (jsonGet fake "parameters") (jsonGet fake "arguments"))])],
        by simp [hp, hk]⟩
    · right; simp [hp, hk]

theorem parse_shape (m : LLMMessage) :
    (∃ tcs, parse_tool_calls m = (some tcs, false)) ∨
    parse_tool_calls m = (none, true) ∨
    (m.tool_calls = [] ∧ pyStrip m.content = "" ∧ parse_tool_calls m = (none, false)) := by
  have htail : ∀ js : String,
      (∃ tcs, fallbackFromJsonText js = (some tcs, false)) ∨
        fallbackFromJsonText js = (none, true) := by
    intro js
    rcases fallback_shape js with ⟨tc, h⟩ | h
    · exact Or.inl ⟨[tc], h⟩
    · exact Or.inr h
  cases htc : m.tool_calls with
  | cons a l => exact Or.inl ⟨a :: l, by simp [parse_tool_calls, htc]⟩
  | nil =>
    by_cases h2 : pyStrip m.content = ""
    · exact Or.inr (Or.inr ⟨rfl, h2, by simp [parse_tool_calls, htc, h2]⟩)
    · rcases hbs : braceSearch (pyStrip m.content).data with _ | cs
      · by_cases hsw : (pyStartsWith (pyStrip m.content) "\x7b" &&
            pyEndsWith (pyStrip m.content) "\x7d") = true
        · have hfb : parse_tool_calls m = fallbackFromJsonText (pyStrip m.content) := by
            simp [parse_tool_calls, htc, h2, hbs, hsw]
          rcases htail (pyStrip m.content) with ⟨tcs, h⟩ | h
          · exact Or.inl ⟨tcs, hfb.trans h⟩
          · exact Or.inr (Or.inl (hfb.trans h))
        · have hda : parse_tool_calls m = (none, true) := by
            simp [parse_tool_calls, htc, h2, hbs, hsw]
          exact Or.inr (Or.inl hda)
      · have hfb : parse_tool_calls m = fallbackFromJsonText (String.mk cs) := by
          simp [parse_tool_calls, htc, h2, hbs]
        rcases htail (String.mk cs) with ⟨tcs, h⟩ | h
        · exact Or.inl ⟨tcs, hfb.trans h⟩
        · exact Or.inr (Or.inl (hfb.trans h))

/-- C2 counterexample: a message with no structured calls and empty (or
whitespace-only, which strips to empty) content yields `(none, false)` —
a result that is neither a tool-call decision (first component `none`)
nor a direct-answer classification (flag `false`), refuting that parsing
always returns one of the two Decisions. -/
theorem C2_cx_blank_content :
    parse_tool_calls ⟨[], ""⟩ = (none, false) ∧
    (parse_tool_calls ⟨[], ""⟩).1 = none ∧
    (parse_tool_calls ⟨[], ""⟩).2 = false :=
  ⟨rfl, rfl, rfl⟩

/-- C2 (amended): parsing is total — for every response message it
returns exactly one result and never raises; whenever the structured
field is non-empty or the content does not strip to the empty string, the
result is a Decision (a tool-call list with flag `false`, or the
direct-answer classification), and in the remaining blank-content case it
returns `(none, false)`. -/
theorem C2_parse_total (m : LLMMessage) :
    ((m.tool_calls ≠ [] ∨ pyStrip m.content ≠ "") →
      (∃ tcs, parse_tool_calls m = (some tcs, false)) ∨
        parse_tool_calls m = (none, true)) ∧
    (m.tool_calls = [] → pyStrip m.content = "" →
      parse_tool_calls m = (none, false)) := by
  constructor
  · intro h
    rcases parse_shape m with h1 | h1 | ⟨he, hc, _⟩
    · exact Or.inl h1
    · exact Or.inr h1
    · rcases h with h | h
      · exact absurd he h
      · exact absurd hc h
  · intro he hc
    simp [parse_tool_calls, he, hc]

/-- Witness for C2 (amended): a free-text message is classified as a
Decision, and the blank message falls into the `(none, false)` case. -/
theorem C2_parse_total_witness :
    ((([] : List Json) ≠ [] ∨ pyStrip "hi" ≠ "") ∧
      ((∃ tcs, parse_tool_calls ⟨[], "hi"⟩ = (some tcs, false)) ∨
        parse_tool_calls ⟨[], "hi"⟩ = (none, true))) ∧
    (([] : List Json) = [] ∧ pyStrip "" = "" ∧
      parse_tool_calls ⟨[], ""⟩ = (none, false)) := by
  refine ⟨⟨Or.inr (by decide), (C2_parse_total ⟨[], "hi"⟩).1 (Or.inr (by decide))⟩,
    rfl, by decide, (C2_parse_total ⟨[], ""⟩).2 rfl (by decide)⟩

/-- C3: when the structured field is empty and the stripped free-text
content is one brace-delimited JSON object (so the greedy brace search
returns the whole text) that parses, after escape repair, to an object
with a `name` key plus a `parameters` or `arguments` key, the parser
returns exactly one synthesized tool-call request for that name whose
`arguments` are the `parameters` value normalized via Python `or`
semantics to the `arguments` value. -/
theorem C3_fallback_synthesis (m : LLMMessage) (o : List (String × Json)) (nmv : Json)
    (h0 : m.tool_calls = [])
    (h1 : pyStrip m.content ≠ "")
    (hsearch : braceSearch (pyStrip m.content).data = some (pyStrip m.content).data)
    (hparse : jsonParse (clean_json_text (String.mk (pyStrip m.content).data)) =
      some (Json.obj o))
    (hname : alookup o "name" = some nmv)
    (hkeys : (alookup o "parameters").isSome = true ∨
      (alookup o "arguments").isSome = true) :
    parse_tool_calls m =
      (some [Json.obj [("function",
        Json.obj [("name", nmv),
                  ("arguments", pyOr (alookup o "parameters") (alookup o "arguments"))])]],
       false) := by
  have hfb : parse_tool_calls m = fallbackFromJsonText (String.mk (pyStrip m.content).data) := by
    simp [parse_tool_calls, h0, h1, hsearch]
  rw [hfb]
  rcases hkeys with hk | hk
  · simp [fallbackFromJsonText, hparse, jsonHasKey, jsonGet, hname, hk]
  · simp [fallbackFromJsonText, hparse, jsonHasKey, jsonGet, hname, hk]

/-- Witness for C3, Scenario B: the bare text
`{"name": "query_db", "parameters": {"sql": "SELECT 1"}}` with no
structured field produces one synthesized `query_db` request with
`arguments.sql == "SELECT 1"`. -/
theorem C3_fallback_synthesis_witness :
    ((⟨[], c3Content⟩ : LLMMessage).tool_calls = [] ∧
     pyStrip c3Content ≠ "" ∧
     braceSearch (pyStrip c3Content).data = some (pyStrip c3Content).data ∧
     jsonParse (clean_json_text (String.mk (pyStrip c3Content).data)) =
       some (Json.obj [("name", Json.str "query_db"),
                       ("parameters", Json.obj [("sql", Json.str "SELECT 1")])]) ∧
     alookup [("name", Json.str "query_db"),
              ("parameters", Json.obj [("sql", Json.str "SELECT 1")])] "name" =
       some (Json.str "query_db")) ∧
    parse_tool_calls ⟨[], c3Content⟩ =
      (some [Json.obj [("function",
        Json.obj [("name", Json.str "query_db"),
                  ("arguments", Json.obj [("sql", Json.str "SELECT 1")])])]],
       false) := by
  refine ⟨⟨rfl, by decide, by decide, rfl, rfl⟩, ?_⟩
  exact C3_fallback_synthesis ⟨[], c3Content⟩
    [("name", Json.str "query_db"), ("parameters", Json.obj [("sql", Json.str "SELECT 1")])]
    (Json.str "query_db") rfl (by decide) (by decide) rfl rfl
    (Or.inl (by decide))

/-- C4: in the two-request batch where `read_file` is registered and
`missing_tool` is not, `execute_tools` returns two results — the success
and the failure entry carrying the stringified registry `KeyError` and
the tool name — and the run with this assistant message proceeds through
the synthesis step (the event stream reaches step 5 and the final answer
comes from the second reasoning call applied to the conversation holding
both results), rather than crashing. -/
theorem C4_unregistered_tool (model_name prompt : String)
    (secondChat : List ConvEntry → String) :
    execute_tools c4Net c4ServerMap 10 [c4Call1, c4Call2] = .ok [c4Success, c4Failure] ∧
    (MCPAgent.run model_name (c4Tools, c4ServerMap) c4Message c4Net secondChat prompt).map
        AgentEvent.type =
      [.step_start, .success, .step_start, .info, .success, .step_start, .info,
       .step_start, .tool_call, .tool_call, .tool_result, .tool_result,
       .step_start, .info, .final_answer] ∧
    finalAnswers (MCPAgent.run model_name (c4Tools, c4ServerMap) c4Message c4Net
        secondChat prompt) =
      [secondChat (create_conversation prompt ++ [ConvEntry.assistant c4Message] ++
        [ConvEntry.plain "tool" (jsonDumps c4Success),
         ConvEntry.plain "tool" (jsonDumps c4Failure)])] :=
  ⟨rfl, rfl, rfl⟩

/-- Witness for C4 at concrete model name, prompt and second-call
oracle. -/
theorem C4_unregistered_tool_witness :
    execute_tools c4Net c4ServerMap 10 [c4Call1, c4Call2] = .ok [c4Success, c4Failure] ∧
    finalAnswers (MCPAgent.run "llama3" (c4Tools, c4ServerMap) c4Message c4Net
        (fun _ => "both results used") "who wrote notes.txt?") = ["both results used"] :=
  ⟨(C4_unregistered_tool "llama3" "who wrote notes.txt?" (fun _ => "both results used")).1,
   (C4_unregistered_tool "llama3" "who wrote notes.txt?" (fun _ => "both results used")).2.2⟩

/-- C5 counterexample: the file backend responds (successfully, with an
empty tool list) while the database backend fails, yet the returned
catalog is empty — refuting that discovery returns a non-empty catalog
whenever at least one backend responds. -/
theorem C5_cx_empty_responder :
    (Except.ok ([] : List SDKTool) : Except String (List SDKTool)).isOk = true ∧
    discover_all_tools (.ok []) (.error "connection timed out")
      "http://mcp-file:3333" "http://mcp-db:3334" = ([], []) :=
  ⟨rfl, rfl⟩

/-- C5 (amended): whenever at least one backend responds with at least
one tool, discovery returns a non-empty catalog; the routing table's
names are unique unconditionally, every name discovered from the
(later-discovered) database backend routes to that backend, and a
file-backend name not claimed by the database backend routes to the file
backend — i.e. the last-discovered backend wins name collisions. -/
theorem C5_discovery_merge (fileRes dbRes : Except String (List SDKTool))
    (fu du : String)
    (h : (∃ ts, fileRes = .ok ts ∧ ts ≠ []) ∨ (∃ ts, dbRes = .ok ts ∧ ts ≠ [])) :
    (discover_all_tools fileRes dbRes fu du).1 ≠ [] ∧
    ((discover_all_tools fileRes dbRes fu du).2.map Prod.fst).Nodup ∧
    (∀ ts, dbRes = .ok ts → ∀ t ∈ get_tools_convert ts,
      alookup (discover_all_tools fileRes dbRes fu du).2 t.name = some (mcpUrl du)) ∧
    (∀ ts, fileRes = .ok ts → ∀ t ∈ get_tools_convert ts,
      (∀ ds, dbRes = .ok ds → t.name ∉ (get_tools_convert ds).map MCPTool.name) →
      alookup (discover_all_tools fileRes dbRes fu du).2 t.name = some (mcpUrl fu)) := by
  cases fileRes with
  | ok fts =>
    cases dbRes with
    | ok dts =>
      refine ⟨?_, ?_, ?_, ?_⟩
      · have hne : fts ≠ [] ∨ dts ≠ [] := by
          rcases h with ⟨ts, hts, hne⟩ | ⟨ts, hts, hne⟩
          · injection hts with h'; subst h'; exact Or.inl hne
          · injection hts with h'; subst h'; exact Or.inr hne
        rcases hne with hf | hd
        · cases fts with
          | nil => exact absurd rfl hf
          | cons a l => simp [discover_all_tools, get_tools_convert]
        · cases dts with
          | nil => exact absurd rfl hd
          | cons a l => simp [discover_all_tools, get_tools_convert]
      · exact nodup_keys_registerTools _ _ _ (nodup_keys_registerTools _ _ _ List.nodup_nil)
      · intro ts hts t ht
        injection hts with h'; subst h'
        simp only [discover_all_tools]
        rw [alookup_registerTools]
        simp [List.mem_map_of_mem MCPTool.name ht]
      · intro ts hts t ht hnot
        injection hts with h'; subst h'
        have hnd : t.name ∉ (get_tools_convert dts).map MCPTool.name := hnot dts rfl
        simp only [discover_all_tools]
        rw [alookup_registerTools, if_neg hnd, alookup_registerTools,
          if_pos (List.mem_map_of_mem MCPTool.name ht)]
    | error ed =>
      refine ⟨?_, ?_, ?_, ?_⟩
      · have hf : fts ≠ [] := by
          rcases h with ⟨ts, hts, hne⟩ | ⟨ts, hts, hne⟩
          · injection hts with h'; subst h'; exact hne
          · cases hts
        cases fts with
        | nil => exact absurd rfl hf
        | cons a l => simp [discover_all_tools, get_tools_convert]
      · exact nodup_keys_registerTools _ _ _ List.nodup_nil
      · intro ts hts; cases hts
      · intro ts hts t ht hnot
        injection hts with h'; subst h'
        simp only [discover_all_tools]
        rw [alookup_registerTools, if_pos (List.mem_map_of_mem MCPTool.name ht)]
  | error ef =>
    cases dbRes with
    | ok dts =>
      refine ⟨?_, ?_, ?_, ?_⟩
      · have hd : dts ≠ [] := by
          rcases h with ⟨ts, hts, hne⟩ | ⟨ts, hts, hne⟩
          · cases hts
          · injection hts with h'; subst h'; exact hne
        cases dts with
        | nil => exact absurd rfl hd
        | cons a l => simp [discover_all_tools, get_tools_convert]
      · exact nodup_keys_registerTools _ _ _ List.nodup_nil
      · intro ts hts t ht
        injection hts with h'; subst h'
        simp only [discover_all_tools]
        rw [alookup_registerTools, if_pos (List.mem_map_of_mem MCPTool.name ht)]
      · intro ts hts; cases hts
    | error ed =>
      rcases h with ⟨ts, hts, hne⟩ | ⟨ts, hts, hne⟩ <;> cases hts

/-- Witness for C5 (amended): both backends respond, sharing the name
`read_file`; the catalog is non-empty and the shared name routes to the
database backend (last-discovered wins), while `query_db` would route to
its own backend. -/
theorem C5_discovery_merge_witness :
    ((∃ ts, (Except.ok [(⟨"read_file", none, none⟩ : SDKTool)] :
        Except String (List SDKTool)) = .ok ts ∧ ts ≠ []) ∨
      (∃ ts, (Except.ok [(⟨"read_file", some "db copy", none⟩ : SDKTool)] :
        Except String (List SDKTool)) = .ok ts ∧ ts ≠ [])) ∧
    (discover_all_tools (.ok [⟨"read_file", none, none⟩])
        (.ok [⟨"read_file", some "db copy", none⟩])
        "http://mcp-file:3333" "http://mcp-db:3334").1 ≠ [] ∧
    alookup (discover_all_tools (.ok [⟨"read_file", none, none⟩])
        (.ok [⟨"read_file", some "db copy", none⟩])
        "http://mcp-file:3333" "http://mcp-db:3334").2 "read_file" =
      some "http://mcp-db:3334/mcp" := by
  have h := C5_discovery_merge (.ok [⟨"read_file", none, none⟩])
    (.ok [⟨"read_file", some "db copy", none⟩]) "http://mcp-file:3333" "http://mcp-db:3334"
    (Or.inl ⟨_, rfl, by simp⟩)
  refine ⟨Or.inl ⟨_, rfl, by simp⟩, h.1, ?_⟩
  have hlast := h.2.2.1 [⟨"read_file", some "db copy", none⟩] rfl
    ⟨"read_file", "db copy", defaultInputSchema⟩ (by simp [get_tools_convert, convertSdkTool])
  have hurl : mcpUrl "http://mcp-db:3334" = "http://mcp-db:3334/mcp" := by decide
  rw [hurl] at hlast
  exact hlast

/-- C6: when both backends fail discovery the returned catalog (and
routing table) is empty, and a run over that discovery result emits
exactly the discovery step event followed by the user-facing
no-tools-available error — it terminates without crashing and never
reaches the reasoning step (no step-2 event exists). -/
theorem C6_empty_catalog_terminal (a b fu du model_name prompt : String)
    (msg : LLMMessage) (net : Net) (secondChat : List ConvEntry → String) :
    discover_all_tools (.error a) (.error b) fu du = ([], []) ∧
    MCPAgent.run model_name (discover_all_tools (.error a) (.error b) fu du)
        msg net secondChat prompt =
      [ev .step_start 1 "Discovery & Assembly",
       ev .error 1 "No tools available! Make sure MCP servers are running."] :=
  ⟨rfl, rfl⟩

/-- Witness for C6 at concrete inputs. -/
theorem C6_empty_catalog_terminal_witness :
    MCPAgent.run "llama3"
        (discover_all_tools (.error "timeout") (.error "refused")
          "http://mcp-file:3333" "http://mcp-db:3334")
        ⟨[], "hi"⟩ c4Net (fun _ => "unused") "prompt" =
      [ev .step_start 1 "Discovery & Assembly",
       ev .error 1 "No tools available! Make sure MCP servers are running."] :=
  (C6_empty_catalog_terminal "timeout" "refused" "http://mcp-file:3333"
    "http://mcp-db:3334" "llama3" "prompt" ⟨[], "hi"⟩ c4Net (fun _ => "unused")).2

/-- C7: whenever the decision parser classifies the first response as a
direct answer, the run's outcome is independent of the second reasoning
oracle (no second reasoning call influences it) and the unique final
answer equals the response message's content, unchanged. -/
theorem C7_direct_answer_roundtrip (model_name prompt : String)
    (disc : List Json × List (String × String)) (msg : LLMMessage) (net : Net)
    (s₁ s₂ : List ConvEntry → String)
    (htools : disc.1 ≠ [])
    (hdirect : parse_tool_calls msg = (none, true)) :
    MCPAgent.run model_name disc msg net s₁ prompt =
      MCPAgent.run model_name disc msg net s₂ prompt ∧
    finalAnswers (MCPAgent.run model_name disc msg net s₁ prompt) = [msg.content] := by
  obtain ⟨tools, smap⟩ := disc
  have hemp : tools.isEmpty = false := by
    cases tools with
    | nil => exact absurd rfl htools
    | cons a l => rfl
  constructor
  · simp [MCPAgent.run, hemp, hdirect]
  · simp [MCPAgent.run, hemp, hdirect, finalAnswers, ev, evD]

/-- Witness for C7: a free-text answer round-trips as the final answer
for two distinct second-call oracles. -/
theorem C7_direct_answer_roundtrip_witness :
    (c4Tools ≠ [] ∧ parse_tool_calls ⟨[], "hello there"⟩ = (none, true)) ∧
    finalAnswers (MCPAgent.run "llama3" (c4Tools, c4ServerMap) ⟨[], "hello there"⟩
        c4Net (fun _ => "oracle one") "p") = ["hello there"] := by
  have h := C7_direct_answer_roundtrip "llama3" "p" (c4Tools, c4ServerMap)
    ⟨[], "hello there"⟩ c4Net (fun _ => "oracle one") (fun _ => "oracle two")
    (by simp [c4Tools]) rfl
  exact ⟨⟨by simp [c4Tools], rfl⟩, h.2⟩

theorem aInsert_of_not_mem {α : Type} (m : List (String × α)) (k : String) (v : α)
    (h : k ∉ m.map Prod.fst) : aInsert m k v = m ++ [(k, v)] := by
  induction m with
  | nil => rfl
  | cons p rest ih =>
    obtain ⟨k₁, v₁⟩ := p
    have hne : k₁ ≠ k := fun he => h (by simp [he])
    simp only [aInsert, if_neg hne, List.cons_append, List.cons.injEq, true_and]
    exact ih (fun hm => h (by simp [hm]))

theorem foldl_aInsert_unwrap (kvs acc : List (String × Json))
    (hdisj : ∀ p ∈ kvs, p.1 ∉ acc.map Prod.fst)
    (hnd : (kvs.map Prod.fst).Nodup) :
    kvs.foldl (fun acc p => aInsert acc p.1 (unwrapValue p.2)) acc =
      acc ++ kvs.map (fun p => (p.1, unwrapValue p.2)) := by
  induction kvs generalizing acc with
  | nil => simp
  | cons p ps ih =>
    obtain ⟨k, v⟩ := p
    have hk : k ∉ acc.map Prod.fst := hdisj (k, v) (List.mem_cons_self _ _)
    have hstep : aInsert acc k (unwrapValue v) = acc ++ [(k, unwrapValue v)] :=
      aInsert_of_not_mem acc k (unwrapValue v) hk
    have hnd' : (ps.map Prod.fst).Nodup := (List.nodup_cons.mp hnd).2
    have hknotin : k ∉ ps.map Prod.fst := (List.nodup_cons.mp hnd).1
    have hdisj' : ∀ q ∈ ps, q.1 ∉ (acc ++ [(k, unwrapValue v)]).map Prod.fst := by
      intro q hq
      simp only [List.map_append, List.mem_append, List.map_cons, List.map_nil,
        List.mem_singleton, not_or]
      refine ⟨hdisj q (List.mem_cons_of_mem _ hq), ?_⟩
      intro he
      exact hknotin (he ▸ List.mem_map_of_mem Prod.fst hq)
    rw [List.foldl_cons, hstep, ih _ hdisj' hnd', List.append_assoc]
    simp

theorem normalizeFields_eq_map (kvs : List (String × Json))
    (hnd : (kvs.map Prod.fst).Nodup) :
    normalizeFields kvs = kvs.map (fun p => (p.1, unwrapValue p.2)) := by
  have h := foldl_aInsert_unwrap kvs [] (by simp) hnd
  simpa [normalizeFields] using h

/-- C8 counterexample: the value `{"value": 1, "extra": 2}` is not of the
form `{"value": x}` (it has a second key), yet the normalization step does
not pass it through unchanged — it replaces it by `1` — refuting that
only values of exactly that form are unwrapped while all others pass
through. -/
theorem C8_cx_extra_key :
    unwrapValue (Json.obj [("value", Json.num 1), ("extra", Json.num 2)]) = Json.num 1 ∧
    (∀ x : Json,
      Json.obj [("value", Json.num 1), ("extra", Json.num 2)] ≠ Json.obj [("value", x)]) ∧
    Json.num 1 ≠ Json.obj [("value", Json.num 1), ("extra", Json.num 2)] ∧
    normalizeArgs (Json.obj [("a", Json.obj [("value", Json.num 1), ("extra", Json.num 2)])]) =
      .ok [("a", Json.num 1)] := by
  refine ⟨rfl, ?_, ?_, rfl⟩
  · intro x h
    simp at h
  · intro h
    simp at h

/-- C8 (amended): for a raw argument dict with no duplicate keys (the
only dicts Python can produce), normalization rebuilds the dict in order
with each value unwrapped exactly one level, where a value that is a
mapping containing a `value` key is replaced by that key's entry and
every other value passes through unchanged. -/
theorem C8_argument_normalization (kvs : List (String × Json))
    (hnd : (kvs.map Prod.fst).Nodup) :
    normalizeArgs (Json.obj kvs) =
      .ok (kvs.map (fun p => (p.1, unwrapValue p.2))) ∧
    ∀ p ∈ kvs,
      (hasValueKey p.2 = true →
        ∃ m x, p.2 = Json.obj m ∧ alookup m "value" = some x ∧ unwrapValue p.2 = x) ∧
      (hasValueKey p.2 = false → unwrapValue p.2 = p.2) := by
  constructor
  · simp [normalizeArgs, normalizeFields_eq_map kvs hnd]
  · intro p hp
    constructor
    · intro hv
      cases hval : p.2 with
      | obj m =>
        rcases hlk : alookup m "value" with _ | x
        · rw [hval] at hv; simp [hasValueKey, hlk] at hv
        · exact ⟨m, x, rfl, hlk, by simp [unwrapValue, hlk]⟩
      | null => rw [hval] at hv; simp [hasValueKey] at hv
      | bool b => rw [hval] at hv; simp [hasValueKey] at hv
      | num n => rw [hval] at hv; simp [hasValueKey] at hv
      | str s => rw [hval] at hv; simp [hasValueKey] at hv
      | arr xs => rw [hval] at hv; simp [hasValueKey] at hv
    · intro hv
      cases hval : p.2 with
      | obj m =>
        rcases hlk : alookup m "value" with _ | x
        · simp [unwrapValue, hlk]
        · rw [hval] at hv; simp [hasValueKey, hlk] at hv
      | null => rfl
      | bool b => rfl
      | num n => rfl
      | str s => rfl
      | arr xs => rfl

/-- Witness for C8 (amended): a wrapped scalar is unwrapped and a plain
scalar passes through. -/
theorem C8_argument_normalization_witness :
    (([("sql", Json.obj [("value", Json.str "SELECT 1")]), ("limit", Json.num 5)].map
        Prod.fst).Nodup) ∧
    normalizeArgs (Json.obj [("sql", Json.obj [("value", Json.str "SELECT 1")]),
        ("limit", Json.num 5)]) =
      .ok [("sql", Json.str "SELECT 1"), ("limit", Json.num 5)] := by
  have h := C8_argument_normalization
    [("sql", Json.obj [("value", Json.str "SELECT 1")]), ("limit", Json.num 5)]
    (by simp)
  exact ⟨by simp, h.1⟩

/-- C9: when the decision is a non-empty well-formed tool-call batch and
execution returns results, the run's unique final answer is the second
reasoning call's content applied to exactly the conversation consisting
of the original conversation (system and user messages), then the
assistant's original tool-call message, then one role-`tool` entry per
execution result in result order whose content is the JSON-serialized
outcome. -/
theorem C9_synthesis_conversation (model_name prompt : String)
    (disc : List Json × List (String × String)) (msg : LLMMessage) (net : Net)
    (secondChat : List ConvEntry → String) (calls results : List Json)
    (htools : disc.1 ≠ [])
    (hparse : parse_tool_calls msg = (some calls, false))
    (hne : calls ≠ [])
    (hwf : ∀ c ∈ calls, isWFCall c = true)
    (hexec : execute_tools net disc.2 10 calls = .ok results) :
    finalAnswers (MCPAgent.run model_name disc msg net secondChat prompt) =
      [secondChat (create_conversation prompt ++ [ConvEntry.assistant msg] ++
        results.map (fun r => ConvEntry.plain "tool" (jsonDumps r)))] := by
  obtain ⟨tools, smap⟩ := disc
  have hemp : tools.isEmpty = false := by
    cases tools with
    | nil => exact absurd rfl htools
    | cons a l => rfl
  cases calls with
  | nil => exact absurd rfl hne
  | cons c cs =>
    rcases htce : toolCallEvents (c :: cs) with ⟨tcEvs, exc⟩
    have hexc : exc = none := by
      have h := toolCallEvents_wf (c :: cs) hwf
      rw [htce] at h
      exact h
    subst hexc
    have h1 : finalAnswers tcEvs = [] := by
      have h := finalAnswers_toolCallEvents (c :: cs)
      rw [htce] at h
      exact h
    have h2 : finalAnswers (results.map toolResultEvent) = [] :=
      finalAnswers_map_toolResult results
    simp only [finalAnswers] at h1 h2
    have h1' := List.map_eq_nil_iff.mp h1
    have h2' := List.map_eq_nil_iff.mp h2
    simp [MCPAgent.run, hemp, hparse, htce, hexec, finalAnswers, h1', h2',
      ev, evD, add_tool_results, format_tool_results_for_llm]

/-- Witness for C9: the C4 batch produces a final answer computed from
the conversation extended by the assistant message and both serialized
results. -/
theorem C9_synthesis_conversation_witness :
    ((c4Tools ≠ []) ∧ parse_tool_calls c4Message = (some [c4Call1, c4Call2], false) ∧
      ([c4Call1, c4Call2] ≠ ([] : List Json)) ∧
      execute_tools c4Net c4ServerMap 10 [c4Call1, c4Call2] = .ok [c4Success, c4Failure]) ∧
    finalAnswers (MCPAgent.run "llama3" (c4Tools, c4ServerMap) c4Message c4Net
        (fun conv => toString conv.length) "p") =
      [toString (create_conversation "p" ++ [ConvEntry.assistant c4Message] ++
        [c4Success, c4Failure].map (fun r => ConvEntry.plain "tool" (jsonDumps r))).length] := by
  refine ⟨⟨by simp [c4Tools], rfl, by simp, rfl⟩, ?_⟩
  exact C9_synthesis_conversation "llama3" "p" (c4Tools, c4ServerMap) c4Message c4Net
    (fun conv => toString conv.length) [c4Call1, c4Call2]
    [c4Success, c4Failure] (by simp [c4Tools]) rfl (by simp) (by decide) rfl

/-- C10 counterexample: for whitespace-only content the parser does
return `(none, false)`, but the orchestrator emits the whitespace string
itself — not the empty string — as the final answer. -/
theorem C10_cx_whitespace :
    parse_tool_calls ⟨[], " "⟩ = (none, false) ∧
    finalAnswers (MCPAgent.run "llama3" (c4Tools, c4ServerMap) ⟨[], " "⟩ c4Net
        (fun _ => "unused") "p") = [" "] ∧
    (" " : String) ≠ "" := by
  refine ⟨rfl, rfl, by decide⟩

/-- C10 (amended): for a message with no structured calls whose content
strips to the empty string, the parser returns `(none, false)` — neither
a tool-call decision nor a direct-answer classification — and the run
emits the raw content (the empty string exactly when the content is
empty) as its unique final answer. -/
theorem C10_blank_content (model_name prompt : String)
    (disc : List Json × List (String × String)) (msg : LLMMessage) (net : Net)
    (secondChat : List ConvEntry → String)
    (htools : disc.1 ≠ [])
    (h0 : msg.tool_calls = [])
    (hblank : pyStrip msg.content = "") :
    parse_tool_calls msg = (none, false) ∧
    finalAnswers (MCPAgent.run model_name disc msg net secondChat prompt) =
      [msg.content] := by
  obtain ⟨tools, smap⟩ := disc
  have hemp : tools.isEmpty = false := by
    cases tools with
    | nil => exact absurd rfl htools
    | cons a l => rfl
  have hp : parse_tool_calls msg = (none, false) := by
    simp [parse_tool_calls, h0, hblank]
  exact ⟨hp, by simp [MCPAgent.run, hemp, hp, finalAnswers, ev, evD]⟩

/-- Witness for C10 (amended): the empty-content message yields the
neither-state and the empty final answer. -/
theorem C10_blank_content_witness :
    (c4Tools ≠ [] ∧ (⟨[], ""⟩ : LLMMessage).tool_calls = [] ∧ pyStrip "" = "") ∧
    parse_tool_calls ⟨[], ""⟩ = (none, false) ∧
    finalAnswers (MCPAgent.run "llama3" (c4Tools, c4ServerMap) ⟨[], ""⟩ c4Net
        (fun _ => "unused") "p") = [""] := by
  have h := C10_blank_content "llama3" "p" (c4Tools, c4ServerMap) ⟨[], ""⟩ c4Net
    (fun _ => "unused") (by simp [c4Tools]) rfl (by decide)
  exact ⟨⟨by simp [c4Tools], rfl, by decide⟩, h.1, h.2⟩

end MCPLab
